import Mathlib

set_option linter.unusedVariables false

/-!
Shallow embedding of `channels.py`: the acoustic and the optical underwater
channel models of the captain-sim repository.

Modelling conventions: Python floats become real numbers; `math.log10`,
`math.sqrt`, `math.erfc`, `math.cos`, `math.pi`, `math.e` become the
corresponding real functions and constants; `x ** y` with a float exponent
becomes real exponentiation (`Real.rpow`); the packet size is a natural number
(the spec declares it a non-negative integer number of bytes), so the packet
aggregation `(...) ** (8 * psize)` is ordinary `Monoid.npow`.  The global
`random()` source of `from random import random` is modelled as an explicit
stream of reals together with a cursor (`RandSource`), so that how many draws
an operation consumes is visible in its type.  A Python `assert` that can fail
is modelled by returning `Except String`; sequential reassignments of one
Python variable become shadowing `let`s.  The abstract base class `Channel`
only raises `NotImplementedError` and carries no state; it needs no embedding
of its own.
-/

namespace CaptainSim

open Real MeasureTheory Set
open scoped Classical

noncomputable section

/-- Python `math.erfc`: the complementary error function,
`erfc x = (2/√π) · ∫ t in (x,∞), exp (-t²)`. -/
def erfc (x : ℝ) : ℝ := 2 / Real.sqrt π * ∫ t in Ioi x, Real.exp (-t ^ 2)

/-- Python `math.log10`. -/
def log10 (x : ℝ) : ℝ := Real.logb 10 x

/-- The shared random source of `from random import random`: a stream of values
and a cursor.  Each call of `random()` returns the value under the cursor and
advances the cursor by one; nothing else about the source changes. -/
structure RandSource where
  stream : ℕ → ℝ
  idx : ℕ

/-- One call of `random()`. -/
def RandSource.draw (r : RandSource) : ℝ × RandSource :=
  (r.stream r.idx, ⟨r.stream, r.idx + 1⟩)

/-- A constructed `AcousticChannel`: the three fields set by `__init__`. -/
structure AcousticChannel where
  k : ℝ
  s : ℝ
  w : ℝ

namespace AcousticChannel

/-- Class attribute `soundSpeed = 1500` (sound speed in water, m/s). -/
def soundSpeed : ℝ := 1500

/-- `AcousticChannel.__init__(k, s, w)`: the three asserts run in order
(`k in [1.0, 1.5, 2.0]`, `s >= 0 and s <= 1`, `w >= 0`); a failing assert
raises `AssertionError` with its message before any field is assigned, so no
partial object exists on failure. -/
def init (k s w : ℝ) : Except String AcousticChannel :=
  if k = 1.0 ∨ k = 1.5 ∨ k = 2.0 then
    if s ≥ 0 ∧ s ≤ 1 then
      if w ≥ 0 then .ok ⟨k, s, w⟩
      else .error "wind speed must be positive"
    else .error "0 <= s <= 1"
  else .error "k = 1.0 or 1.5 or 2.0"

/-- `get_propagation_time(distance) = distance / soundSpeed`. -/
def get_propagation_time (ch : AcousticChannel) (distance : ℝ) : ℝ :=
  distance / soundSpeed

/-- `AcousticChannel.thorp(frequency)`: Thorp's attenuation in dB/m,
with `f = frequency ** 2`, branching on `f > 0.4`; `pow(10, -4)` is kept as a
power of ten, as in the source. -/
def thorp (ch : AcousticChannel) (frequency : ℝ) : ℝ :=
  let f := frequency ^ 2
  let atten :=
    if f > 0.4 then
      0.11 * f / (1 + f) + 44 * (f / (4100 + frequency)) +
        (2.75 * (10 : ℝ) ^ (-4 : ℤ) * f + 0.003)
    else
      0.002 + 0.11 * (f / (1 + f)) + 0.011 * f
  atten / 1000

/-- The high branch (`frequency² > 0.4`) of `thorp`, final `/1000` included:
the formula the spec gives for that branch. -/
def thorpHighBranch (frequency : ℝ) : ℝ :=
  (0.11 * frequency ^ 2 / (1 + frequency ^ 2) +
    44 * (frequency ^ 2 / (4100 + frequency)) +
    (2.75 * (10 : ℝ) ^ (-4 : ℤ) * frequency ^ 2 + 0.003)) / 1000

/-- The low branch (`frequency² ≤ 0.4`) of `thorp`, final `/1000` included. -/
def thorpLowBranch (frequency : ℝ) : ℝ :=
  (0.002 + 0.11 * (frequency ^ 2 / (1 + frequency ^ 2)) +
    0.011 * frequency ^ 2) / 1000

/-- `pathloss(distance, frequency) = 10.0 * k * log10(distance) + distance * thorp(frequency)`. -/
def pathloss (ch : AcousticChannel) (distance frequency : ℝ) : ℝ :=
  10.0 * ch.k * log10 distance + distance * ch.thorp frequency

/-- `AcousticChannel.noise(frequency)`: four dB-scale contributions, each
converted to linear power via `10 ** (x * 0.1)`, summed, converted back to dB. -/
def noise (ch : AcousticChannel) (frequency : ℝ) : ℝ :=
  let nTurbulence := 17 - 30 * log10 frequency
  let nTurbulence := (10 : ℝ) ^ (nTurbulence * 0.1)
  let nShipping := 40 + 20 * (ch.s - 0.5) + 26 * log10 frequency -
    60 * log10 (frequency + 0.03)
  let nShipping := (10 : ℝ) ^ (nShipping * 0.1)
  let nWind := 50 + 7.5 * Real.sqrt ch.w + 20 * log10 frequency -
    40 * log10 (frequency + 0.4)
  let nWind := (10 : ℝ) ^ (nWind * 0.1)
  let nThermal := 20 * log10 frequency - 15
  let nThermal := (10 : ℝ) ^ (nThermal * 0.1)
  10 * log10 (nTurbulence + nShipping + nWind + nThermal)

/-- `snr_dB(distance, frequency, Pt, psize, noise_bw)`; `psize` is accepted and
ignored, as in the source. -/
def snr_dB (ch : AcousticChannel) (distance frequency Pt psize noise_bw : ℝ) : ℝ :=
  let pl := ch.pathloss distance frequency
  let nf := noise_bw * ch.noise frequency
  Pt - pl - nf

/-- `AcousticChannel.snr`: the Python body is the single statement
`snr = 10 ** (self.snr_dB(distance, frequency, Pt, size, noise_bw)/10)` in
which the name `size` is unbound, so every call raises `NameError` before
computing anything (and the method also has no `return` statement).  Modelled
as the unconditional failure the interpreter produces. -/
def snr (ch : AcousticChannel) (distance frequency Pt psize noise_bw : ℝ) :
    Except String ℝ :=
  .error "NameError: name size is not defined"

/-- `per(distance, frequency, Pt, psize, noise_bw)`: AWGN packet error rate,
`ber = 0.5 * erfc(sqrt(snr))`, `per = 1 - (1 - ber) ** (8 * psize)`.
The source gives `noise_bw` the default value `2.35`. -/
def per (ch : AcousticChannel) (distance frequency Pt : ℝ) (psize : ℕ)
    (noise_bw : ℝ) : ℝ :=
  let pl := ch.pathloss distance frequency
  let nf := noise_bw * ch.noise frequency
  let snrdB := Pt - pl - nf
  let snr := (10 : ℝ) ^ (snrdB / 10)
  let ber := 0.5 * erfc (Real.sqrt snr)
  1.0 - (1.0 - ber) ^ (8 * psize)

/-- `perRF(distance, frequency, Pt, psize, noise_bw)`: Rayleigh-fading packet
error rate, `ber = 0.5 * (1 - sqrt(snr / (1 + snr)))`, same aggregation.  The
source first casts `frequency` and `distance` with `float(...)`, a no-op here.
The source gives `noise_bw` the default value `2.35`. -/
def perRF (ch : AcousticChannel) (distance frequency Pt : ℝ) (psize : ℕ)
    (noise_bw : ℝ) : ℝ :=
  let f := frequency
  let d := distance
  let pl := ch.pathloss d f
  let nf := noise_bw * ch.noise f
  let snrdB := Pt - pl - nf
  let snr := (10 : ℝ) ^ (snrdB / 10)
  let ber := 0.5 * (1 - Real.sqrt (snr / (1 + snr)))
  1.0 - (1.0 - ber) ^ (8 * psize)

/-- `AcousticChannel.use(frequency, power, distance, packetSize)`: computes
`perRF(distance, frequency, power, packetSize)` (so `noise_bw` takes its
default `2.35`), performs one `random()` call, and returns
`not (random() < per)`. -/
def use (ch : AcousticChannel) (frequency power distance : ℝ) (packetSize : ℕ)
    (r : RandSource) : Bool × RandSource :=
  let per := ch.perRF distance frequency power packetSize 2.35
  let dr := r.draw
  (!decide (dr.1 < per), dr.2)

end AcousticChannel

/-- A constructed `OpticalChannel`: the ten fields set by `__init__` (the class
body initialises them to `None`; `__init__` assigns all ten, so a constructed
object always carries real values). -/
structure OpticalChannel where
  c : ℝ
  T : ℝ
  S : ℝ
  R : ℝ
  Id : ℝ
  Il : ℝ
  Ar : ℝ
  At : ℝ
  bw : ℝ
  theta : ℝ

namespace OpticalChannel

/-- Class attribute `q = 1.6e-19` (electronic charge, C). -/
def q : ℝ := 1.6e-19

/-- Class attribute `K = 1.38e-23` (Boltzmann constant, J/K). -/
def K : ℝ := 1.38e-23

/-- Class attribute `lightSpeed = 2.25e8` (light speed in water, m/s). -/
def lightSpeed : ℝ := 2.25e8

/-- `get_propagation_time(distance) = distance / lightSpeed`. -/
def get_propagation_time (ch : OpticalChannel) (distance : ℝ) : ℝ :=
  distance / lightSpeed

/-- `OpticalChannel.snr(P, distance, d, beta)`: received power `p` built by
three reassignments, then `(S*p)**2 / (currentNoise + thermalNoise)`;
`e ** (-c*d)` is Python `math.e` raised to a float power. -/
def snr (ch : OpticalChannel) (P distance d beta : ℝ) : ℝ :=
  let p := 2 * P * ch.Ar * Real.cos beta
  let p := p / (π * distance ^ 2 * (1 - Real.cos ch.theta) + 2 * ch.At)
  let p := p * Real.exp 1 ^ (-ch.c * d)
  let thermalNoise := 4 * K * ch.T * ch.bw / ch.R
  let currentNoise := 2 * q * (ch.Id + ch.Il) * ch.bw
  (ch.S * p) ^ 2 / (currentNoise + thermalNoise)

/-- `snr_dB(P, distance, d, beta) = 10 * log10(snr(...))`. -/
def snr_dB (ch : OpticalChannel) (P distance d beta : ℝ) : ℝ :=
  10 * log10 (ch.snr P distance d beta)

/-- `OpticalChannel.per(P, distance, d, beta, psize)`: recomputes the SNR
inline (the source comment says it avoids the `snr` method for speed), then
AWGN `ber = 0.5 * erfc(sqrt(snr))` and `per = 1 - (1-ber) ** (8*psize)`. -/
def per (ch : OpticalChannel) (P distance d beta : ℝ) (psize : ℕ) : ℝ :=
  let p := 2 * P * ch.Ar * Real.cos beta
  let p := p / (π * distance ^ 2 * (1 - Real.cos ch.theta) + 2 * ch.At)
  let p := p * Real.exp 1 ^ (-ch.c * d)
  let thermalNoise := 4 * K * ch.T * ch.bw / ch.R
  let currentNoise := 2 * q * (ch.Id + ch.Il) * ch.bw
  let snr := (ch.S * p) ^ 2 / (currentNoise + thermalNoise)
  let ber := 0.5 * erfc (Real.sqrt snr)
  1.0 - (1.0 - ber) ^ (8 * psize)

/-- `OpticalChannel.perRF(P, distance, d, beta, psize)`: same inline SNR, then
Rayleigh-fading `ber = 0.5 * (1 - sqrt(snr / (1 + snr)))`. -/
def perRF (ch : OpticalChannel) (P distance d beta : ℝ) (psize : ℕ) : ℝ :=
  let p := 2 * P * ch.Ar * Real.cos beta
  let p := p / (π * distance ^ 2 * (1 - Real.cos ch.theta) + 2 * ch.At)
  let p := p * Real.exp 1 ^ (-ch.c * d)
  let thermalNoise := 4 * K * ch.T * ch.bw / ch.R
  let currentNoise := 2 * q * (ch.Id + ch.Il) * ch.bw
  let snr := (ch.S * p) ^ 2 / (currentNoise + thermalNoise)
  let ber := 0.5 * (1 - Real.sqrt (snr / (1 + snr)))
  1.0 - (1.0 - ber) ^ (8 * psize)

/-- `OpticalChannel.use(power, distance, d, beta, psize)`: computes
`perRF(power, distance, d, beta, psize)`, performs one `random()` call, and
returns `not (random() < per)`. -/
def use (ch : OpticalChannel) (power distance d beta : ℝ) (psize : ℕ)
    (r : RandSource) : Bool × RandSource :=
  let per := ch.perRF power distance d beta psize
  let dr := r.draw
  (!decide (dr.1 < per), dr.2)

end OpticalChannel

/-! Facts about the embedded functions, used by the claim theorems below. -/

lemma exp_neg_sq_integrable : Integrable fun t : ℝ => Real.exp (-t ^ 2) := by
  simpa using integrable_exp_neg_mul_sq (b := 1) one_pos

lemma exp_neg_sq_integral : (∫ t : ℝ, Real.exp (-t ^ 2)) = Real.sqrt π := by
  simpa using integral_gaussian 1

lemma exp_neg_sq_integral_Ioi_zero :
    (∫ t in Ioi (0 : ℝ), Real.exp (-t ^ 2)) = Real.sqrt π / 2 := by
  simpa using integral_gaussian_Ioi 1

lemma erfc_nonneg (x : ℝ) : 0 ≤ erfc x := by
  unfold erfc
  refine mul_nonneg (by positivity) ?_
  exact setIntegral_nonneg measurableSet_Ioi fun t _ => (Real.exp_pos _).le

lemma erfc_anti {x y : ℝ} (h : x ≤ y) : erfc y ≤ erfc x := by
  unfold erfc
  refine mul_le_mul_of_nonneg_left ?_ (by positivity)
  refine setIntegral_mono_set exp_neg_sq_integrable.integrableOn ?_ ?_
  · exact Filter.Eventually.of_forall fun t => (Real.exp_pos _).le
  · exact HasSubset.Subset.eventuallyLE (Ioi_subset_Ioi h)

lemma erfc_le_two (x : ℝ) : erfc x ≤ 2 := by
  unfold erfc
  have h1 : (∫ t in Ioi x, Real.exp (-t ^ 2)) ≤ ∫ t : ℝ, Real.exp (-t ^ 2) :=
    setIntegral_le_integral exp_neg_sq_integrable
      (Filter.Eventually.of_forall fun t => (Real.exp_pos _).le)
  rw [exp_neg_sq_integral] at h1
  have hπ : Real.sqrt π ≠ 0 := Real.sqrt_ne_zero'.mpr Real.pi_pos
  calc 2 / Real.sqrt π * ∫ t in Ioi x, Real.exp (-t ^ 2)
      ≤ 2 / Real.sqrt π * Real.sqrt π := by
        exact mul_le_mul_of_nonneg_left h1 (by positivity)
    _ = 2 := div_mul_cancel₀ 2 hπ

lemma erfc_zero_eq_one : erfc 0 = 1 := by
  unfold erfc
  rw [exp_neg_sq_integral_Ioi_zero]
  have hπ : Real.sqrt π ≠ 0 := Real.sqrt_ne_zero'.mpr Real.pi_pos
  field_simp

lemma erfc_le_one_of_nonneg {x : ℝ} (hx : 0 ≤ x) : erfc x ≤ 1 :=
  erfc_zero_eq_one ▸ erfc_anti hx

/-- Bounds for the AWGN bit error rate `0.5 * erfc (sqrt snr)`. -/
lemma awgnBer_nonneg (x : ℝ) : 0 ≤ 0.5 * erfc (Real.sqrt x) := by
  have := erfc_nonneg (Real.sqrt x); linarith

lemma awgnBer_le_one (x : ℝ) : 0.5 * erfc (Real.sqrt x) ≤ 1 := by
  have := erfc_le_one_of_nonneg (Real.sqrt_nonneg x); linarith

lemma awgnBer_anti {x y : ℝ} (h : x ≤ y) :
    0.5 * erfc (Real.sqrt y) ≤ 0.5 * erfc (Real.sqrt x) := by
  have := erfc_anti (Real.sqrt_le_sqrt h); linarith

/-- Monotonicity of `t ↦ t / (1 + t)` on the nonnegative reals. -/
lemma div_one_add_mono {x y : ℝ} (hx : 0 ≤ x) (h : x ≤ y) :
    x / (1 + x) ≤ y / (1 + y) := by
  rw [div_le_div_iff₀ (by linarith) (by linarith)]
  nlinarith

lemma div_one_add_le_one {x : ℝ} (hx : 0 ≤ x) : x / (1 + x) ≤ 1 := by
  rw [div_le_one (by linarith)]; linarith

/-- Bounds for the Rayleigh-fading bit error rate `0.5 * (1 - sqrt (snr / (1 + snr)))`. -/
lemma rfBer_nonneg {x : ℝ} (hx : 0 ≤ x) :
    0 ≤ 0.5 * (1 - Real.sqrt (x / (1 + x))) := by
  have h1 : Real.sqrt (x / (1 + x)) ≤ 1 := by
    have := Real.sqrt_le_sqrt (div_one_add_le_one hx)
    simpa [Real.sqrt_one] using this
  linarith

lemma rfBer_le_one (x : ℝ) : 0.5 * (1 - Real.sqrt (x / (1 + x))) ≤ 1 := by
  have := Real.sqrt_nonneg (x / (1 + x)); linarith

lemma rfBer_anti {x y : ℝ} (hx : 0 ≤ x) (h : x ≤ y) :
    0.5 * (1 - Real.sqrt (y / (1 + y))) ≤ 0.5 * (1 - Real.sqrt (x / (1 + x))) := by
  have := Real.sqrt_le_sqrt (div_one_add_mono hx h); linarith

/-- The packet aggregation `1 - (1 - ber) ^ n` stays in `[0, 1]`. -/
lemma perAgg_mem {b : ℝ} (h0 : 0 ≤ b) (h1 : b ≤ 1) (n : ℕ) :
    0 ≤ 1 - (1 - b) ^ n ∧ 1 - (1 - b) ^ n ≤ 1 := by
  constructor
  · have : (1 - b) ^ n ≤ 1 := pow_le_one₀ (by linarith) (by linarith)
    linarith
  · have : (0 : ℝ) ≤ (1 - b) ^ n := pow_nonneg (by linarith) n
    linarith

/-- The packet aggregation is monotone in the bit error rate. -/
lemma perAgg_mono_ber {b1 b2 : ℝ} (h0 : 0 ≤ b1) (h : b1 ≤ b2) (h1 : b2 ≤ 1) (n : ℕ) :
    1 - (1 - b1) ^ n ≤ 1 - (1 - b2) ^ n := by
  have : (1 - b2) ^ n ≤ (1 - b1) ^ n :=
    pow_le_pow_left₀ (by linarith) (by linarith) n
  linarith

/-- The packet aggregation is monotone in the exponent. -/
lemma perAgg_mono_n {b : ℝ} (h0 : 0 ≤ b) (h1 : b ≤ 1) {m n : ℕ} (h : m ≤ n) :
    1 - (1 - b) ^ m ≤ 1 - (1 - b) ^ n := by
  have : (1 - b) ^ n ≤ (1 - b) ^ m :=
    pow_le_pow_of_le_one (by linarith) (by linarith) h
  linarith

/-- Closed form of `AcousticChannel.per` with the inline SNR spelled out. -/
lemma AcousticChannel.acousticPer_eq (ch : AcousticChannel) (distance frequency Pt : ℝ)
    (psize : ℕ) (noise_bw : ℝ) :
    ch.per distance frequency Pt psize noise_bw =
      1 - (1 - 0.5 * erfc (Real.sqrt ((10 : ℝ) ^
        ((Pt - ch.pathloss distance frequency - noise_bw * ch.noise frequency) / 10)))) ^
        (8 * psize) := by
  simp only [AcousticChannel.per]
  norm_num

/-- Closed form of `AcousticChannel.perRF` with the inline SNR spelled out. -/
lemma AcousticChannel.acousticPerRF_eq (ch : AcousticChannel) (distance frequency Pt : ℝ)
    (psize : ℕ) (noise_bw : ℝ) :
    ch.perRF distance frequency Pt psize noise_bw =
      1 - (1 - 0.5 * (1 - Real.sqrt ((10 : ℝ) ^
          ((Pt - ch.pathloss distance frequency - noise_bw * ch.noise frequency) / 10) /
        (1 + (10 : ℝ) ^
          ((Pt - ch.pathloss distance frequency - noise_bw * ch.noise frequency) / 10))))) ^
        (8 * psize) := by
  simp only [AcousticChannel.perRF]
  norm_num

/-- `OpticalChannel.per` recomputes exactly the `snr` method's value inline. -/
lemma OpticalChannel.opticalPer_eq (ch : OpticalChannel) (P distance d beta : ℝ) (psize : ℕ) :
    ch.per P distance d beta psize =
      1 - (1 - 0.5 * erfc (Real.sqrt (ch.snr P distance d beta))) ^ (8 * psize) := by
  unfold OpticalChannel.per OpticalChannel.snr
  ring_nf

/-- `OpticalChannel.perRF` recomputes exactly the `snr` method's value inline. -/
lemma OpticalChannel.opticalPerRF_eq (ch : OpticalChannel) (P distance d beta : ℝ) (psize : ℕ) :
    ch.perRF P distance d beta psize =
      1 - (1 - 0.5 * (1 - Real.sqrt (ch.snr P distance d beta /
        (1 + ch.snr P distance d beta)))) ^ (8 * psize) := by
  unfold OpticalChannel.perRF OpticalChannel.snr
  ring_nf

/-- The optical SNR is nonnegative whenever the total noise power is. -/
lemma OpticalChannel.snr_nonneg (ch : OpticalChannel) (P distance d beta : ℝ)
    (hden : 0 ≤ 2 * OpticalChannel.q * (ch.Id + ch.Il) * ch.bw +
      4 * OpticalChannel.K * ch.T * ch.bw / ch.R) :
    0 ≤ ch.snr P distance d beta := by
  simp only [OpticalChannel.snr]
  exact div_nonneg (sq_nonneg _) hden

/-- Thorp's attenuation is nonnegative at nonnegative frequencies. -/
lemma AcousticChannel.thorp_nonneg (ch : AcousticChannel) {frequency : ℝ}
    (hf : 0 ≤ frequency) : 0 ≤ ch.thorp frequency := by
  simp only [AcousticChannel.thorp]
  split_ifs with h
  · have h1 : (0 : ℝ) < 1 + frequency ^ 2 := by positivity
    have h2 : (0 : ℝ) < 4100 + frequency := by linarith
    have t1 : (0 : ℝ) ≤ 0.11 * frequency ^ 2 / (1 + frequency ^ 2) := by positivity
    have t2 : (0 : ℝ) ≤ 44 * (frequency ^ 2 / (4100 + frequency)) :=
      mul_nonneg (by norm_num) (div_nonneg (sq_nonneg _) h2.le)
    have t3 : (0 : ℝ) ≤ 2.75 * (10 : ℝ) ^ (-4 : ℤ) * frequency ^ 2 + 0.003 := by positivity
    have := add_nonneg (add_nonneg t1 t2) t3
    linarith
  · have h1 : (0 : ℝ) < 1 + frequency ^ 2 := by positivity
    have t1 : (0 : ℝ) ≤ 0.11 * (frequency ^ 2 / (1 + frequency ^ 2)) := by positivity
    have t2 : (0 : ℝ) ≤ 0.011 * frequency ^ 2 := by positivity
    linarith

/-- Path loss is monotone in the distance (valid spreading factor, positive
distances, nonnegative frequency). -/
lemma AcousticChannel.pathloss_mono (ch : AcousticChannel) (hk : 0 ≤ ch.k)
    {frequency d1 d2 : ℝ} (hf : 0 ≤ frequency) (hd1 : 0 < d1) (h : d1 ≤ d2) :
    ch.pathloss d1 frequency ≤ ch.pathloss d2 frequency := by
  unfold AcousticChannel.pathloss
  have h1 : log10 d1 ≤ log10 d2 :=
    Real.logb_le_logb_of_le (by norm_num) hd1 h
  have h3 : 10.0 * ch.k * log10 d1 ≤ 10.0 * ch.k * log10 d2 :=
    mul_le_mul_of_nonneg_left h1 (by nlinarith)
  have h4 : d1 * ch.thorp frequency ≤ d2 * ch.thorp frequency :=
    mul_le_mul_of_nonneg_right h (ch.thorp_nonneg hf)
  linarith

/-- The inline linear SNR of the acoustic PER functions is antitone in distance. -/
lemma AcousticChannel.snrLin_anti (ch : AcousticChannel) (hk : 0 ≤ ch.k)
    {frequency d1 d2 : ℝ} (Pt noise_bw : ℝ) (hf : 0 ≤ frequency) (hd1 : 0 < d1)
    (h : d1 ≤ d2) :
    (10 : ℝ) ^ ((Pt - ch.pathloss d2 frequency - noise_bw * ch.noise frequency) / 10) ≤
      (10 : ℝ) ^ ((Pt - ch.pathloss d1 frequency - noise_bw * ch.noise frequency) / 10) := by
  apply Real.rpow_le_rpow_of_exponent_le (by norm_num)
  have := ch.pathloss_mono hk hf hd1 h
  linarith

/-- The optical SNR is antitone in the geometric distance, given nonnegative
power, receiver area and incidence cosine, a positive transmitter area, and
nonnegative total noise. -/
lemma OpticalChannel.snr_anti (ch : OpticalChannel) (dpath : ℝ) {P beta d1 d2 : ℝ}
    (hP : 0 ≤ P) (hAr : 0 ≤ ch.Ar) (hAt : 0 < ch.At) (hcos : 0 ≤ Real.cos beta)
    (hden : 0 ≤ 2 * OpticalChannel.q * (ch.Id + ch.Il) * ch.bw +
      4 * OpticalChannel.K * ch.T * ch.bw / ch.R)
    (hd1 : 0 < d1) (h : d1 ≤ d2) :
    ch.snr P d2 dpath beta ≤ ch.snr P d1 dpath beta := by
  simp only [OpticalChannel.snr]
  have hnum : 0 ≤ 2 * P * ch.Ar * Real.cos beta :=
    mul_nonneg (mul_nonneg (by linarith) hAr) hcos
  have hcosθ : Real.cos ch.theta ≤ 1 := Real.cos_le_one _
  have hD1 : 0 < π * d1 ^ 2 * (1 - Real.cos ch.theta) + 2 * ch.At := by
    have : 0 ≤ π * d1 ^ 2 * (1 - Real.cos ch.theta) :=
      mul_nonneg (mul_nonneg Real.pi_pos.le (sq_nonneg _)) (by linarith)
    linarith
  have hDle : π * d1 ^ 2 * (1 - Real.cos ch.theta) + 2 * ch.At ≤
      π * d2 ^ 2 * (1 - Real.cos ch.theta) + 2 * ch.At := by
    have h2 : d1 ^ 2 ≤ d2 ^ 2 := pow_le_pow_left₀ hd1.le h 2
    have : π * d1 ^ 2 * (1 - Real.cos ch.theta) ≤ π * d2 ^ 2 * (1 - Real.cos ch.theta) :=
      mul_le_mul_of_nonneg_right
        (mul_le_mul_of_nonneg_left h2 Real.pi_pos.le) (by linarith)
    linarith
  have hE : 0 < Real.exp 1 ^ (-ch.c * dpath) :=
    Real.rpow_pos_of_pos (Real.exp_pos 1) _
  have hp : 2 * P * ch.Ar * Real.cos beta /
        (π * d2 ^ 2 * (1 - Real.cos ch.theta) + 2 * ch.At) * Real.exp 1 ^ (-ch.c * dpath) ≤
      2 * P * ch.Ar * Real.cos beta /
        (π * d1 ^ 2 * (1 - Real.cos ch.theta) + 2 * ch.At) * Real.exp 1 ^ (-ch.c * dpath) :=
    mul_le_mul_of_nonneg_right (div_le_div_of_nonneg_left hnum hD1 hDle) hE.le
  have hp2 : 0 ≤ 2 * P * ch.Ar * Real.cos beta /
      (π * d2 ^ 2 * (1 - Real.cos ch.theta) + 2 * ch.At) * Real.exp 1 ^ (-ch.c * dpath) :=
    mul_nonneg (div_nonneg hnum (by linarith)) hE.le
  have hsq : (ch.S * (2 * P * ch.Ar * Real.cos beta /
        (π * d2 ^ 2 * (1 - Real.cos ch.theta) + 2 * ch.At) *
        Real.exp 1 ^ (-ch.c * dpath))) ^ 2 ≤
      (ch.S * (2 * P * ch.Ar * Real.cos beta /
        (π * d1 ^ 2 * (1 - Real.cos ch.theta) + 2 * ch.At) *
        Real.exp 1 ^ (-ch.c * dpath))) ^ 2 := by
    have hh := mul_le_mul_of_nonneg_left (pow_le_pow_left₀ hp2 hp 2) (sq_nonneg ch.S)
    nlinarith [hh]
  rw [div_eq_mul_inv, div_eq_mul_inv]
  exact mul_le_mul_of_nonneg_right hsq (inv_nonneg.mpr hden)

/-- At the branch boundary `frequency² = 0.4`, the two branch formulas of
`thorp` differ by an amount strictly between `1e-6` and `1.1e-6` (the high
branch being larger), i.e. by about 2.6 percent of the returned value. -/
lemma thorp_boundary_gap (frequency : ℝ) (h : frequency ^ 2 = 0.4) :
    AcousticChannel.thorpLowBranch frequency + 1e-6 <
      AcousticChannel.thorpHighBranch frequency ∧
    AcousticChannel.thorpHighBranch frequency <
      AcousticChannel.thorpLowBranch frequency + 1.1e-6 := by
  have hub : frequency ≤ 0.633 := by nlinarith [sq_nonneg (frequency - 0.633)]
  have hlb : -0.633 ≤ frequency := by nlinarith [sq_nonneg (frequency + 0.633)]
  have hden : (0 : ℝ) < 4100 + frequency := by linarith
  unfold AcousticChannel.thorpLowBranch AcousticChannel.thorpHighBranch
  rw [h, show ((10 : ℝ) ^ (-4 : ℤ)) = 0.0001 by norm_num]
  have hrw : (44 : ℝ) * ((0.4 : ℝ) / (4100 + frequency)) = 17.6 / (4100 + frequency) := by
    ring
  have key1 : (0.00429 : ℝ) < 44 * ((0.4 : ℝ) / (4100 + frequency)) := by
    rw [hrw, lt_div_iff₀ hden]
    linarith
  have key2 : 44 * ((0.4 : ℝ) / (4100 + frequency)) < 0.00439 := by
    rw [hrw, div_lt_iff₀ hden]
    linarith
  constructor <;> nlinarith [key1, key2]

/-! The claim theorems. -/

/-- C1: for every constructed channel (acoustic or optical) and every argument
tuple, `use` computes `perRF` on those arguments (acoustic: with the default
`noise_bw = 2.35`), consumes exactly one uniform draw, and returns `true` iff
the drawn value (the value under the cursor) is `≥` that PER; the resulting
random source is the input source with only the cursor advanced by one, so no
other state is read or changed and no extra draws are consumed. -/
theorem use_one_draw_spec (ac : AcousticChannel) (oc : OpticalChannel)
    (frequency power distance P d beta : ℝ) (packetSize psize : ℕ)
    (r : RandSource) :
    (ac.use frequency power distance packetSize r).2 = ⟨r.stream, r.idx + 1⟩ ∧
    ((ac.use frequency power distance packetSize r).1 = true ↔
      ac.perRF distance frequency power packetSize 2.35 ≤ r.stream r.idx) ∧
    (oc.use P distance d beta psize r).2 = ⟨r.stream, r.idx + 1⟩ ∧
    ((oc.use P distance d beta psize r).1 = true ↔
      oc.perRF P distance d beta psize ≤ r.stream r.idx) := by
  refine ⟨rfl, ?_, rfl, ?_⟩
  · simp [AcousticChannel.use, RandSource.draw, not_lt]
  · simp [OpticalChannel.use, RandSource.draw, not_lt]

/-- C2: `AcousticChannel` construction succeeds, returning the object with
exactly the given fields, for every `k ∈ {1.0, 1.5, 2.0}`, `0 ≤ s ≤ 1`,
`0 ≤ w`; for any parameters violating one of these it fails with a descriptive
error message and produces no object. -/
theorem acoustic_init_validation (k s w : ℝ) :
    ((k = 1.0 ∨ k = 1.5 ∨ k = 2.0) ∧ (0 ≤ s ∧ s ≤ 1) ∧ 0 ≤ w →
      AcousticChannel.init k s w = .ok ⟨k, s, w⟩) ∧
    (¬ ((k = 1.0 ∨ k = 1.5 ∨ k = 2.0) ∧ (0 ≤ s ∧ s ≤ 1) ∧ 0 ≤ w) →
      ∃ msg, AcousticChannel.init k s w = .error msg) := by
  unfold AcousticChannel.init
  constructor
  · rintro ⟨h1, ⟨h2a, h2b⟩, h3⟩
    rw [if_pos h1, if_pos ⟨h2a, h2b⟩, if_pos h3]
  · intro h
    split_ifs with h1 h2 h3
    · exact absurd ⟨h1, ⟨h2.1, h2.2⟩, h3⟩ h
    · exact ⟨_, rfl⟩
    · exact ⟨_, rfl⟩
    · exact ⟨_, rfl⟩

/-- C2 witness: construction succeeds at `(2, 0.5, 0)` with exactly those
fields, and fails with an error at `(3, 0.5, 0)`. -/
theorem acoustic_init_validation_witness :
    AcousticChannel.init 2 0.5 0 = .ok ⟨2, 0.5, 0⟩ ∧
    ∃ msg, AcousticChannel.init 3 0.5 0 = .error msg :=
  ⟨(acoustic_init_validation 2 0.5 0).1 (by norm_num),
   (acoustic_init_validation 3 0.5 0).2 (by norm_num)⟩

/-- C3: the `AcousticChannel.snr` wrapper does not return
`10 ^ (snr_dB(...)/10)` on any input: its body references the unbound name
`size`, so the call fails with a `NameError` — shown here at the spec's own
concrete-scenario channel `AcousticChannel(k=2.0, s=0.5, w=0)` with arguments
`(distance=1000, frequency=10, Pt=100, psize=100, noise_bw=2.35)`. -/
theorem acoustic_snr_raises_nameerror :
    AcousticChannel.snr ⟨2, 0.5, 0⟩ 1000 10 100 100 2.35 =
      Except.error "NameError: name size is not defined" := rfl

/-- C6: `thorp` computes, with `f = frequency²`, exactly the high-branch value
`(0.11·f/(1+f) + 44·f/(4100+frequency) + 2.75e-4·f + 0.003)/1000` when
`f > 0.4` and the low-branch value `(0.002 + 0.11·f/(1+f) + 0.011·f)/1000`
otherwise. -/
theorem thorp_piecewise_formula (ch : AcousticChannel) (frequency : ℝ) :
    ch.thorp frequency =
      if frequency ^ 2 > 0.4 then
        (0.11 * frequency ^ 2 / (1 + frequency ^ 2) +
          44 * frequency ^ 2 / (4100 + frequency) +
          2.75e-4 * frequency ^ 2 + 0.003) / 1000
      else
        (0.002 + 0.11 * (frequency ^ 2 / (1 + frequency ^ 2)) +
          0.011 * frequency ^ 2) / 1000 := by
  simp only [AcousticChannel.thorp]
  split_ifs with h
  · rw [show ((10 : ℝ) ^ (-4 : ℤ)) = 0.0001 by norm_num]
    ring
  · rfl

/-- C7: the optical `snr` equals `(S·p)² / (currentNoise + thermalNoise)` with
`p = 2·P·Ar·cos(beta) / (π·distance²·(1−cos(theta)) + 2·At) · e^(−c·d)`,
`currentNoise = 2·q·(Id+Il)·bw` and `thermalNoise = 4·K·T·bw/R`. -/
theorem optical_snr_formula (ch : OpticalChannel) (P distance d beta : ℝ) :
    ch.snr P distance d beta =
      (ch.S * (2 * P * ch.Ar * Real.cos beta /
          (π * distance ^ 2 * (1 - Real.cos ch.theta) + 2 * ch.At) *
          Real.exp (-ch.c * d))) ^ 2 /
        (2 * OpticalChannel.q * (ch.Id + ch.Il) * ch.bw +
          4 * OpticalChannel.K * ch.T * ch.bw / ch.R) := by
  simp only [OpticalChannel.snr]
  rw [Real.exp_one_rpow]

/-- C9: a packet size of zero gives a packet error rate of exactly zero, for
`per` and `perRF` on both channels, whatever the other arguments are. -/
theorem per_zero_packet_size (ac : AcousticChannel) (oc : OpticalChannel)
    (distance frequency Pt noise_bw P d beta : ℝ) :
    ac.per distance frequency Pt 0 noise_bw = 0 ∧
    ac.perRF distance frequency Pt 0 noise_bw = 0 ∧
    oc.per P distance d beta 0 = 0 ∧
    oc.perRF P distance d beta 0 = 0 := by
  rw [ac.acousticPer_eq, ac.acousticPerRF_eq, oc.opticalPer_eq, oc.opticalPerRF_eq]
  norm_num

/-- C10: the SNR computed inline inside the optical `per` and `perRF` is
exactly the value of the `snr` method on the same `P, distance, d, beta`, so
`per = 1 − (1 − 0.5·erfc(√snr))^(8·psize)` and
`perRF = 1 − (1 − 0.5·(1 − √(snr/(1+snr))))^(8·psize)`. -/
theorem optical_per_perRF_refine_snr (ch : OpticalChannel)
    (P distance d beta : ℝ) (psize : ℕ) :
    ch.per P distance d beta psize =
      1 - (1 - 0.5 * erfc (Real.sqrt (ch.snr P distance d beta))) ^ (8 * psize) ∧
    ch.perRF P distance d beta psize =
      1 - (1 - 0.5 * (1 - Real.sqrt (ch.snr P distance d beta /
        (1 + ch.snr P distance d beta)))) ^ (8 * psize) :=
  ⟨ch.opticalPer_eq P distance d beta psize, ch.opticalPerRF_eq P distance d beta psize⟩

/-- C5: for every channel, `per` and `perRF` lie in `[0, 1]`; for the optical
channel this is stated under the claim's own proviso that the linear SNR is
nonnegative (the acoustic linear SNR `10^(snrdB/10)` is always positive). -/
theorem per_perRF_in_unit_interval (ac : AcousticChannel) (oc : OpticalChannel)
    (distance frequency Pt noise_bw P d beta : ℝ) (psize : ℕ)
    (hsnr : 0 ≤ oc.snr P distance d beta) :
    (0 ≤ ac.per distance frequency Pt psize noise_bw ∧
      ac.per distance frequency Pt psize noise_bw ≤ 1) ∧
    (0 ≤ ac.perRF distance frequency Pt psize noise_bw ∧
      ac.perRF distance frequency Pt psize noise_bw ≤ 1) ∧
    (0 ≤ oc.per P distance d beta psize ∧ oc.per P distance d beta psize ≤ 1) ∧
    (0 ≤ oc.perRF P distance d beta psize ∧
      oc.perRF P distance d beta psize ≤ 1) := by
  refine ⟨?_, ?_, ?_, ?_⟩
  · rw [ac.acousticPer_eq]
    exact perAgg_mem (awgnBer_nonneg _) (awgnBer_le_one _) _
  · rw [ac.acousticPerRF_eq]
    have hpos : (0 : ℝ) < (10 : ℝ) ^
        ((Pt - ac.pathloss distance frequency - noise_bw * ac.noise frequency) / 10) :=
      Real.rpow_pos_of_pos (by norm_num) _
    exact perAgg_mem (rfBer_nonneg hpos.le) (rfBer_le_one _) _
  · rw [oc.opticalPer_eq]
    exact perAgg_mem (awgnBer_nonneg _) (awgnBer_le_one _) _
  · rw [oc.opticalPerRF_eq]
    exact perAgg_mem (rfBer_nonneg hsnr) (rfBer_le_one _) _

/-- C5 witness: the ranges at a concrete acoustic channel
`(k=2, s=0.5, w=0)` with `(distance=1000, frequency=10, Pt=100,
noise_bw=2.35, psize=100)` and a concrete optical channel (the spec's
representative photodiode parameters) with `(P=1, distance=1000, d=5,
beta=0)`. -/
theorem per_perRF_in_unit_interval_witness :
    (0 ≤ (⟨2, 0.5, 0⟩ : AcousticChannel).per 1000 10 100 100 2.35 ∧
      (⟨2, 0.5, 0⟩ : AcousticChannel).per 1000 10 100 100 2.35 ≤ 1) ∧
    (0 ≤ (⟨2, 0.5, 0⟩ : AcousticChannel).perRF 1000 10 100 100 2.35 ∧
      (⟨2, 0.5, 0⟩ : AcousticChannel).perRF 1000 10 100 100 2.35 ≤ 1) ∧
    (0 ≤ (⟨0.1, 300, 0.5, 1e7, 1e-9, 1e-9, 1e-4, 1e-4, 1e7, 0.5⟩ :
        OpticalChannel).per 1 1000 5 0 100 ∧
      (⟨0.1, 300, 0.5, 1e7, 1e-9, 1e-9, 1e-4, 1e-4, 1e7, 0.5⟩ :
        OpticalChannel).per 1 1000 5 0 100 ≤ 1) ∧
    (0 ≤ (⟨0.1, 300, 0.5, 1e7, 1e-9, 1e-9, 1e-4, 1e-4, 1e7, 0.5⟩ :
        OpticalChannel).perRF 1 1000 5 0 100 ∧
      (⟨0.1, 300, 0.5, 1e7, 1e-9, 1e-9, 1e-4, 1e-4, 1e7, 0.5⟩ :
        OpticalChannel).perRF 1 1000 5 0 100 ≤ 1) :=
  per_perRF_in_unit_interval ⟨2, 0.5, 0⟩
    ⟨0.1, 300, 0.5, 1e7, 1e-9, 1e-9, 1e-4, 1e-4, 1e7, 0.5⟩ 1000 10 100 2.35 1 5 0 100
    (OpticalChannel.snr_nonneg _ 1 1000 5 0
      (by norm_num [OpticalChannel.q, OpticalChannel.K]))

/-- C4: for a validly constructed acoustic channel (any legal spreading
factor) and an optical channel with physically valid parameters (nonnegative
power, receiver area and incidence cosine, positive transmitter area,
nonnegative total noise power), `per` and `perRF` are monotonically
non-decreasing in the distance (over positive distances) and in the packet
size, the other arguments held fixed. -/
theorem per_perRF_monotone (ac : AcousticChannel)
    (hk : ac.k = 1.0 ∨ ac.k = 1.5 ∨ ac.k = 2.0)
    (oc : OpticalChannel) (hAr : 0 ≤ oc.Ar) (hAt : 0 < oc.At)
    (hden : 0 ≤ 2 * OpticalChannel.q * (oc.Id + oc.Il) * oc.bw +
      4 * OpticalChannel.K * oc.T * oc.bw / oc.R)
    (frequency Pt noise_bw P dpath beta dist d1 d2 : ℝ)
    (hf : 0 < frequency) (hP : 0 ≤ P) (hbeta : 0 ≤ Real.cos beta)
    (hdist : 0 < dist) (hd1 : 0 < d1) (hd12 : d1 ≤ d2)
    (psize p1 p2 : ℕ) (hp12 : p1 ≤ p2) :
    ac.per d1 frequency Pt psize noise_bw ≤ ac.per d2 frequency Pt psize noise_bw ∧
    ac.perRF d1 frequency Pt psize noise_bw ≤ ac.perRF d2 frequency Pt psize noise_bw ∧
    ac.per dist frequency Pt p1 noise_bw ≤ ac.per dist frequency Pt p2 noise_bw ∧
    ac.perRF dist frequency Pt p1 noise_bw ≤ ac.perRF dist frequency Pt p2 noise_bw ∧
    oc.per P d1 dpath beta psize ≤ oc.per P d2 dpath beta psize ∧
    oc.perRF P d1 dpath beta psize ≤ oc.perRF P d2 dpath beta psize ∧
    oc.per P dist dpath beta p1 ≤ oc.per P dist dpath beta p2 ∧
    oc.perRF P dist dpath beta p1 ≤ oc.perRF P dist dpath beta p2 := by
  have hk0 : 0 ≤ ac.k := by rcases hk with h | h | h <;> rw [h] <;> norm_num
  have hSanti := ac.snrLin_anti hk0 Pt noise_bw hf.le hd1 hd12
  have hS1pos : (0 : ℝ) < (10 : ℝ) ^
      ((Pt - ac.pathloss d1 frequency - noise_bw * ac.noise frequency) / 10) :=
    Real.rpow_pos_of_pos (by norm_num) _
  have hS2pos : (0 : ℝ) < (10 : ℝ) ^
      ((Pt - ac.pathloss d2 frequency - noise_bw * ac.noise frequency) / 10) :=
    Real.rpow_pos_of_pos (by norm_num) _
  have hSdistpos : (0 : ℝ) < (10 : ℝ) ^
      ((Pt - ac.pathloss dist frequency - noise_bw * ac.noise frequency) / 10) :=
    Real.rpow_pos_of_pos (by norm_num) _
  have hOanti := oc.snr_anti dpath hP hAr hAt hbeta hden hd1 hd12
  have hO1 : 0 ≤ oc.snr P d1 dpath beta := oc.snr_nonneg P d1 dpath beta hden
  have hO2 : 0 ≤ oc.snr P d2 dpath beta := oc.snr_nonneg P d2 dpath beta hden
  have hOdist : 0 ≤ oc.snr P dist dpath beta := oc.snr_nonneg P dist dpath beta hden
  have hm : 8 * p1 ≤ 8 * p2 := by omega
  refine ⟨?_, ?_, ?_, ?_, ?_, ?_, ?_, ?_⟩
  · rw [ac.acousticPer_eq, ac.acousticPer_eq]
    exact perAgg_mono_ber (awgnBer_nonneg _) (awgnBer_anti hSanti) (awgnBer_le_one _) _
  · rw [ac.acousticPerRF_eq, ac.acousticPerRF_eq]
    exact perAgg_mono_ber (rfBer_nonneg hS1pos.le)
      (rfBer_anti hS2pos.le hSanti) (rfBer_le_one _) _
  · rw [ac.acousticPer_eq, ac.acousticPer_eq]
    exact perAgg_mono_n (awgnBer_nonneg _) (awgnBer_le_one _) hm
  · rw [ac.acousticPerRF_eq, ac.acousticPerRF_eq]
    exact perAgg_mono_n (rfBer_nonneg hSdistpos.le) (rfBer_le_one _) hm
  · rw [oc.opticalPer_eq, oc.opticalPer_eq]
    exact perAgg_mono_ber (awgnBer_nonneg _) (awgnBer_anti hOanti) (awgnBer_le_one _) _
  · rw [oc.opticalPerRF_eq, oc.opticalPerRF_eq]
    exact perAgg_mono_ber (rfBer_nonneg hO1) (rfBer_anti hO2 hOanti) (rfBer_le_one _) _
  · rw [oc.opticalPer_eq, oc.opticalPer_eq]
    exact perAgg_mono_n (awgnBer_nonneg _) (awgnBer_le_one _) hm
  · rw [oc.opticalPerRF_eq, oc.opticalPerRF_eq]
    exact perAgg_mono_n (rfBer_nonneg hOdist) (rfBer_le_one _) hm

/-- C4 witness: the monotonicity inequalities at the concrete acoustic channel
`(k=2, s=0.5, w=0)` and the spec's representative optical channel, with
`frequency=10, Pt=100, noise_bw=2.35, P=1, dpath=5, beta=0, dist=3,
distances 1 ≤ 2, packet sizes 1 ≤ 2, psize=50`. -/
theorem per_perRF_monotone_witness :
    (⟨2, 0.5, 0⟩ : AcousticChannel).per 1 10 100 50 2.35 ≤
      (⟨2, 0.5, 0⟩ : AcousticChannel).per 2 10 100 50 2.35 ∧
    (⟨2, 0.5, 0⟩ : AcousticChannel).perRF 1 10 100 50 2.35 ≤
      (⟨2, 0.5, 0⟩ : AcousticChannel).perRF 2 10 100 50 2.35 ∧
    (⟨2, 0.5, 0⟩ : AcousticChannel).per 3 10 100 1 2.35 ≤
      (⟨2, 0.5, 0⟩ : AcousticChannel).per 3 10 100 2 2.35 ∧
    (⟨2, 0.5, 0⟩ : AcousticChannel).perRF 3 10 100 1 2.35 ≤
      (⟨2, 0.5, 0⟩ : AcousticChannel).perRF 3 10 100 2 2.35 ∧
    (⟨0.1, 300, 0.5, 1e7, 1e-9, 1e-9, 1e-4, 1e-4, 1e7, 0.5⟩ :
        OpticalChannel).per 1 1 5 0 50 ≤
      (⟨0.1, 300, 0.5, 1e7, 1e-9, 1e-9, 1e-4, 1e-4, 1e7, 0.5⟩ :
        OpticalChannel).per 1 2 5 0 50 ∧
    (⟨0.1, 300, 0.5, 1e7, 1e-9, 1e-9, 1e-4, 1e-4, 1e7, 0.5⟩ :
        OpticalChannel).perRF 1 1 5 0 50 ≤
      (⟨0.1, 300, 0.5, 1e7, 1e-9, 1e-9, 1e-4, 1e-4, 1e7, 0.5⟩ :
        OpticalChannel).perRF 1 2 5 0 50 ∧
    (⟨0.1, 300, 0.5, 1e7, 1e-9, 1e-9, 1e-4, 1e-4, 1e7, 0.5⟩ :
        OpticalChannel).per 1 3 5 0 1 ≤
      (⟨0.1, 300, 0.5, 1e7, 1e-9, 1e-9, 1e-4, 1e-4, 1e7, 0.5⟩ :
        OpticalChannel).per 1 3 5 0 2 ∧
    (⟨0.1, 300, 0.5, 1e7, 1e-9, 1e-9, 1e-4, 1e-4, 1e7, 0.5⟩ :
        OpticalChannel).perRF 1 3 5 0 1 ≤
      (⟨0.1, 300, 0.5, 1e7, 1e-9, 1e-9, 1e-4, 1e-4, 1e7, 0.5⟩ :
        OpticalChannel).perRF 1 3 5 0 2 :=
  per_perRF_monotone ⟨2, 0.5, 0⟩ (by norm_num)
    ⟨0.1, 300, 0.5, 1e7, 1e-9, 1e-9, 1e-4, 1e-4, 1e7, 0.5⟩
    (by norm_num) (by norm_num)
    (by norm_num [OpticalChannel.q, OpticalChannel.K])
    10 100 2.35 1 5 0 3 1 2
    (by norm_num) (by norm_num) (by simp [Real.cos_zero])
    (by norm_num) (by norm_num) (by norm_num)
    50 1 2 (by norm_num)

/-- C8 counterexample: at the boundary frequency `√0.4` (whose square is
exactly `0.4`), the low-branch value of `thorp` is below `4e-5` while the high
branch exceeds it by more than `1e-6`, a relative disagreement of over two
percent — far outside floating-point tolerance, so the two branch formulas do
not agree at the boundary. -/
theorem thorp_branches_disagree_at_boundary :
    (Real.sqrt 0.4) ^ 2 = 0.4 ∧
    AcousticChannel.thorpLowBranch (Real.sqrt 0.4) < 4e-5 ∧
    AcousticChannel.thorpLowBranch (Real.sqrt 0.4) + 1e-6 <
      AcousticChannel.thorpHighBranch (Real.sqrt 0.4) := by
  have h04 : (Real.sqrt 0.4) ^ 2 = (0.4 : ℝ) := Real.sq_sqrt (by norm_num)
  refine ⟨h04, ?_, (thorp_boundary_gap _ h04).1⟩
  unfold AcousticChannel.thorpLowBranch
  rw [h04]
  norm_num

/-- C8 amended: `thorp` is discontinuous at the branch boundary: at every
frequency with `frequency² = 0.4` the high-branch formula exceeds the
low-branch formula by an amount strictly between `1e-6` and `1.1e-6` — about
2.6 percent of the returned value, not a floating-point-tolerance
agreement. -/
theorem thorp_branch_jump_at_boundary (frequency : ℝ) (h : frequency ^ 2 = 0.4) :
    AcousticChannel.thorpLowBranch frequency + 1e-6 <
      AcousticChannel.thorpHighBranch frequency ∧
    AcousticChannel.thorpHighBranch frequency <
      AcousticChannel.thorpLowBranch frequency + 1.1e-6 :=
  thorp_boundary_gap frequency h

/-- C8 amended witness: the jump bounds at the concrete boundary frequency
`√0.4`. -/
theorem thorp_branch_jump_at_boundary_witness :
    AcousticChannel.thorpLowBranch (Real.sqrt 0.4) + 1e-6 <
      AcousticChannel.thorpHighBranch (Real.sqrt 0.4) ∧
    AcousticChannel.thorpHighBranch (Real.sqrt 0.4) <
      AcousticChannel.thorpLowBranch (Real.sqrt 0.4) + 1.1e-6 :=
  thorp_branch_jump_at_boundary (Real.sqrt 0.4) (Real.sq_sqrt (by norm_num))

end

end CaptainSim
